import Mathlib

/-!
Verification of the data pipeline of `src/dashboard.py` (fedscope-dashboard):
the loader (`load_data`), the preparation steps (`prepare_fedscope_data`,
`prepare_layoff_data`), the KPI aggregation (`calculate_kpis`), the per-tab
filters of `main`, and the sidebar selector construction.

Modelling conventions (shallow embedding of the pandas code):
* a DataFrame appears at two levels: a typed level (one structure per row,
  one `Option` field per nullable column) used for value claims, and an
  untyped frame level (association rows over a declared column list) used for
  schema/error claims, where a missing column reproduces pandas `KeyError`;
* `NaN` cells are `Option.none` (typed level) or `Cell.null` (frame level);
  pandas sums skip `NaN`, modelled by `Option.getD 0`;
* machine numbers are `Int`; a float result (the percentage KPI) is `ℚ`,
  i.e. float arithmetic is modelled exactly;
* pandas `groupby(sort=True)` sorts the unique keys ascending and sums each
  fiber; string order is codepoint-lexicographic (`strLeB` below), matching
  Python string comparison; `Series.idxmax` returns the first index of the
  maximal value in index order;
* `Series.unique()` and Python `list(set(...))` are modelled by first
  occurrence deduplication (`dedupFirst`); for `list(set(...))`, whose order
  Python leaves unspecified, only membership is ever claimed;
* raising code is `Except String`, `.error` being an uncaught exception.
-/

/-! ## Generic list machinery: first-occurrence dedup, insertion sort,
grouped sums. -/

/-- First-occurrence deduplication, accumulator of already seen elements.
Models pandas `Series.unique()` (keeps the first occurrence of each value). -/
def dedupFirstAux {α : Type} [DecidableEq α] (seen : List α) : List α → List α
  | [] => []
  | x :: t => if x ∈ seen then dedupFirstAux seen t else x :: dedupFirstAux (x :: seen) t

def dedupFirst {α : Type} [DecidableEq α] (l : List α) : List α := dedupFirstAux [] l

theorem mem_dedupFirstAux {α : Type} [DecidableEq α] (a : α) :
    ∀ (l seen : List α), a ∈ dedupFirstAux seen l ↔ a ∈ l ∧ a ∉ seen := by
  intro l
  induction l with
  | nil => intro seen; simp [dedupFirstAux]
  | cons x t ih =>
    intro seen
    simp only [dedupFirstAux]
    by_cases hx : x ∈ seen
    · rw [if_pos hx, ih seen]
      constructor
      · rintro ⟨h1, h2⟩
        exact ⟨List.mem_cons_of_mem _ h1, h2⟩
      · rintro ⟨h1, h2⟩
        rcases List.mem_cons.mp h1 with rfl | h1
        · exact absurd hx h2
        · exact ⟨h1, h2⟩
    · rw [if_neg hx]
      constructor
      · intro hmem
        rcases List.mem_cons.mp hmem with rfl | hmem
        · exact ⟨List.mem_cons_self _ _, hx⟩
        · rcases (ih (x :: seen)).mp hmem with ⟨h1, h2⟩
          exact ⟨List.mem_cons_of_mem _ h1, fun hs => h2 (List.mem_cons_of_mem _ hs)⟩
      · rintro ⟨h1, h2⟩
        by_cases hax : a = x
        · exact hax ▸ List.mem_cons_self _ _
        · rcases List.mem_cons.mp h1 with rfl | h1
          · exact absurd rfl hax
          · refine List.mem_cons_of_mem _ ((ih (x :: seen)).mpr ⟨h1, ?_⟩)
            intro hs
            rcases List.mem_cons.mp hs with rfl | hs
            · exact hax rfl
            · exact h2 hs

theorem mem_dedupFirst {α : Type} [DecidableEq α] (a : α) (l : List α) :
    a ∈ dedupFirst l ↔ a ∈ l := by
  rw [dedupFirst, mem_dedupFirstAux]
  simp

theorem nodup_dedupFirstAux {α : Type} [DecidableEq α] :
    ∀ (l seen : List α), (dedupFirstAux seen l).Nodup := by
  intro l
  induction l with
  | nil => intro seen; simp [dedupFirstAux]
  | cons x t ih =>
    intro seen
    simp only [dedupFirstAux]
    by_cases hx : x ∈ seen
    · rw [if_pos hx]; exact ih seen
    · rw [if_neg hx]
      refine List.Nodup.cons ?_ (ih (x :: seen))
      intro hmem
      exact ((mem_dedupFirstAux x t (x :: seen)).mp hmem).2 (List.mem_cons_self x seen)

theorem nodup_dedupFirst {α : Type} [DecidableEq α] (l : List α) :
    (dedupFirst l).Nodup := nodup_dedupFirstAux l []

/-- Insertion into a list sorted by the boolean comparator `le`. -/
def insSorted {α : Type} (le : α → α → Bool) (x : α) : List α → List α
  | [] => [x]
  | y :: t => if le x y then x :: y :: t else y :: insSorted le x t

/-- Insertion sort by the boolean comparator `le`; models the ascending key
sort that pandas `groupby(sort=True)` performs (any correct sort gives the
same list, so the sorting algorithm itself is immaterial). -/
def sortBy {α : Type} (le : α → α → Bool) (l : List α) : List α :=
  l.foldr (insSorted le) []

theorem perm_insSorted {α : Type} (le : α → α → Bool) (x : α) :
    ∀ l : List α, List.Perm (insSorted le x l) (x :: l) := by
  intro l
  induction l with
  | nil => simp [insSorted]
  | cons y t ih =>
    by_cases h : le x y
    · simp [insSorted, if_pos h]
    · simp only [insSorted, if_neg h]
      exact (ih.cons y).trans (List.Perm.swap x y t)

theorem perm_sortBy {α : Type} (le : α → α → Bool) (l : List α) :
    List.Perm (sortBy le l) l := by
  induction l with
  | nil => simp [sortBy]
  | cons x t ih =>
    have h1 : sortBy le (x :: t) = insSorted le x (sortBy le t) := rfl
    rw [h1]
    exact (perm_insSorted le x _).trans (ih.cons x)

theorem mem_sortBy {α : Type} (le : α → α → Bool) (a : α) (l : List α) :
    a ∈ sortBy le l ↔ a ∈ l :=
  (perm_sortBy le l).mem_iff

theorem pairwise_insSorted {α : Type} (le : α → α → Bool)
    (total : ∀ a b, le a b = true ∨ le b a = true)
    (trans : ∀ a b c, le a b = true → le b c = true → le a c = true) (x : α) :
    ∀ l : List α, l.Pairwise (fun a b => le a b = true) →
      (insSorted le x l).Pairwise (fun a b => le a b = true) := by
  intro l
  induction l with
  | nil => intro _; simp [insSorted]
  | cons y t ih =>
    intro hp
    rcases List.pairwise_cons.mp hp with ⟨hy, ht⟩
    by_cases h : le x y
    · simp only [insSorted, if_pos h]
      refine List.pairwise_cons.mpr ⟨?_, hp⟩
      intro b hb
      rcases List.mem_cons.mp hb with rfl | hb
      · exact h
      · exact trans x y b h (hy b hb)
    · simp only [insSorted, if_neg h]
      refine List.pairwise_cons.mpr ⟨?_, ih ht⟩
      intro b hb
      rcases List.mem_cons.mp ((perm_insSorted le x t).mem_iff.mp hb) with rfl | hb'
      · rcases total b y with hxy | hyx
        · exact absurd hxy h
        · exact hyx
      · exact hy b hb'

theorem pairwise_sortBy {α : Type} (le : α → α → Bool)
    (total : ∀ a b, le a b = true ∨ le b a = true)
    (trans : ∀ a b c, le a b = true → le b c = true → le a c = true)
    (l : List α) : (sortBy le l).Pairwise (fun a b => le a b = true) := by
  induction l with
  | nil => simp [sortBy]
  | cons x t ih => exact pairwise_insSorted le total trans x _ ih

/-! ## Sums over grouped data -/

/-- Sum of `val` over the rows whose key is `k` — one fiber of a pandas
`groupby(key)[val].sum()`. -/
def fiberSum {α K : Type} [DecidableEq K] (key : α → K) (val : α → Int)
    (rows : List α) (k : K) : Int :=
  ((rows.filter (fun r => decide (key r = k))).map val).sum

/-- The grouped table `rows.groupby(key)[val].sum()` with the unique keys in
ascending `le` order, as pandas `groupby(sort=True)` produces. -/
def groupPairs {α K : Type} [DecidableEq K] (le : K → K → Bool) (key : α → K)
    (val : α → Int) (rows : List α) : List (K × Int) :=
  (sortBy le (dedupFirst (rows.map key))).map (fun k => (k, fiberSum key val rows k))

theorem sum_ite_not_mem {K : Type} [DecidableEq K] (k0 : K) (v : Int) :
    ∀ ks : List K, k0 ∉ ks → ((ks.map (fun k => if k0 = k then v else 0)).sum = 0) := by
  intro ks
  induction ks with
  | nil => intro _; simp
  | cons x t ih =>
    intro h
    have hx : k0 ≠ x := fun he => h (he ▸ List.mem_cons_self x t)
    have ht : k0 ∉ t := fun hm => h (List.mem_cons_of_mem x hm)
    simp [List.map_cons, if_neg hx, ih ht]

theorem sum_ite_single {K : Type} [DecidableEq K] (k0 : K) (v : Int) :
    ∀ ks : List K, ks.Nodup → k0 ∈ ks →
      ((ks.map (fun k => if k0 = k then v else 0)).sum = v) := by
  intro ks
  induction ks with
  | nil => intro _ h; cases h
  | cons x t ih =>
    intro hnd hmem
    have hnd' := List.nodup_cons.mp hnd
    rcases List.mem_cons.mp hmem with rfl | hm
    · rw [List.map_cons, List.sum_cons, if_pos rfl, sum_ite_not_mem k0 v t hnd'.1]
      ring
    · have hx : k0 ≠ x := fun he => hnd'.1 (he ▸ hm)
      rw [List.map_cons, List.sum_cons, if_neg hx, ih hnd'.2 hm]
      ring

theorem fiberSum_cons {α K : Type} [DecidableEq K] (key : α → K) (val : α → Int)
    (r : α) (rows : List α) (k : K) :
    fiberSum key val (r :: rows) k
      = (if key r = k then val r else 0) + fiberSum key val rows k := by
  by_cases h : key r = k
  · simp [fiberSum, List.filter_cons, h]
  · simp [fiberSum, List.filter_cons, h]

theorem sum_fibers {α K : Type} [DecidableEq K] (key : α → K) (val : α → Int) :
    ∀ (rows : List α) (ks : List K), ks.Nodup → (∀ r ∈ rows, key r ∈ ks) →
      ((ks.map (fiberSum key val rows)).sum = (rows.map val).sum) := by
  intro rows
  induction rows with
  | nil =>
    intro ks _ _
    have h0 : ∀ k ∈ ks, fiberSum key val ([] : List α) k = (fun _ : K => (0 : Int)) k :=
      fun k _ => rfl
    rw [List.map_congr_left h0]
    simp
  | cons r rest ih =>
    intro ks hnd hcov
    have hmap : ks.map (fiberSum key val (r :: rest))
        = ks.map (fun k => (if key r = k then val r else 0) + fiberSum key val rest k) :=
      List.map_congr_left (fun k _ => fiberSum_cons key val r rest k)
    rw [hmap, List.sum_map_add,
      sum_ite_single (key r) (val r) ks hnd (hcov r (List.mem_cons_self r rest)),
      ih ks hnd (fun x hx => hcov x (List.mem_cons_of_mem r hx))]
    simp

theorem groupPairs_sum {α K : Type} [DecidableEq K] (le : K → K → Bool)
    (key : α → K) (val : α → Int) (rows : List α) :
    (((groupPairs le key val rows).map Prod.snd).sum = (rows.map val).sum) := by
  have h1 : (groupPairs le key val rows).map Prod.snd
      = (sortBy le (dedupFirst (rows.map key))).map (fiberSum key val rows) := by
    rw [groupPairs, List.map_map]; rfl
  have hperm : List.Perm ((sortBy le (dedupFirst (rows.map key))).map (fiberSum key val rows))
      ((dedupFirst (rows.map key)).map (fiberSum key val rows)) :=
    (perm_sortBy le _).map _
  rw [h1, hperm.sum_eq]
  refine sum_fibers key val rows (dedupFirst (rows.map key)) (nodup_dedupFirst _) ?_
  intro r hr
  exact (mem_dedupFirst _ _).mpr (List.mem_map_of_mem key hr)

theorem groupPairs_keys {α K : Type} [DecidableEq K] (le : K → K → Bool)
    (key : α → K) (val : α → Int) (rows : List α) (k : K) :
    k ∈ (groupPairs le key val rows).map Prod.fst ↔ k ∈ rows.map key := by
  rw [groupPairs, List.map_map]
  have h1 : ∀ ll : List K,
      List.map (Prod.fst ∘ fun k => (k, fiberSum key val rows k)) ll = ll := by
    intro ll
    induction ll with
    | nil => rfl
    | cons a b ihb => rw [List.map_cons, ihb]; rfl
  rw [h1, mem_sortBy, mem_dedupFirst]

theorem sum_filter_eq_sum_ite {α : Type} (p : α → Prop) [DecidablePred p] (v : α → Int) :
    ∀ l : List α, (((l.filter (fun a => decide (p a))).map v).sum
      = (l.map (fun a => if p a then v a else 0)).sum) := by
  intro l
  induction l with
  | nil => simp
  | cons x t ih =>
    by_cases h : p x
    · simp [List.filter_cons, h, ih]
    · simp [List.filter_cons, h, ih]

/-! ## Strings: case-insensitive substring containment and
codepoint-lexicographic order -/

/-- The characters of `s` lowercased; models Python `str.lower()` as used by
`Series.str.contains(..., case=False)` (ASCII scope suffices for the data). -/
def lowerChars (s : String) : List Char := s.toList.map Char.toLower

/-- `leadMatch n h` holds when `n` is an initial segment of `h`. -/
def leadMatch : List Char → List Char → Bool
  | [], _ => true
  | _ :: _, [] => false
  | a :: as, b :: bs => a == b && leadMatch as bs

/-- `occursIn n h` holds when `n` occurs contiguously inside `h` (in
particular the empty needle occurs in everything, exactly as an empty
regular expression matches every string). -/
def occursIn (n : List Char) : List Char → Bool
  | [] => n.isEmpty
  | c :: t => leadMatch n (c :: t) || occursIn n t

/-- Case-insensitive substring containment: the semantics of
`Series.str.contains(needle, case=False)` for a metacharacter-free needle. -/
def occursCI (needle hay : String) : Bool :=
  occursIn (lowerChars needle) (lowerChars hay)

/-- Codepoint-lexicographic order on character lists (the order Python uses
to compare and sort strings, hence the order of pandas `groupby` keys). -/
def charListLe : List Char → List Char → Bool
  | [], _ => true
  | _ :: _, [] => false
  | a :: as, b :: bs => if a = b then charListLe as bs else decide (a < b)

/-- Codepoint-lexicographic order on strings. -/
def strLeB (a b : String) : Bool := charListLe a.toList b.toList

theorem charListLe_refl : ∀ l : List Char, charListLe l l = true := by
  intro l
  induction l with
  | nil => rfl
  | cons a t ih => simp [charListLe, ih]

theorem charListLe_total : ∀ a b : List Char, charListLe a b = true ∨ charListLe b a = true := by
  intro a
  induction a with
  | nil => intro b; exact Or.inl rfl
  | cons x xs ih =>
    intro b
    cases b with
    | nil => exact Or.inr rfl
    | cons y ys =>
      by_cases hxy : x = y
      · subst hxy
        rcases ih ys with h | h
        · exact Or.inl (by simp [charListLe, h])
        · exact Or.inr (by simp [charListLe, h])
      · rcases lt_or_gt_of_ne hxy with hlt | hgt
        · exact Or.inl (by simp [charListLe, if_neg hxy, hlt])
        · have hyx : y ≠ x := fun he => hxy he.symm
          exact Or.inr (by simp [charListLe, if_neg hyx, hgt])

theorem charListLe_trans :
    ∀ a b c : List Char, charListLe a b = true → charListLe b c = true →
      charListLe a c = true := by
  intro a
  induction a with
  | nil => intro b c _ _; rfl
  | cons x xs ih =>
    intro b c hab hbc
    cases b with
    | nil => simp [charListLe] at hab
    | cons y ys =>
      cases c with
      | nil => simp [charListLe] at hbc
      | cons z zs =>
        by_cases hxy : x = y
        · subst hxy
          by_cases hyz : x = z
          · subst hyz
            simp only [charListLe, if_pos rfl] at hab hbc ⊢
            exact ih ys zs hab hbc
          · simp only [charListLe, if_pos rfl] at hab
            simp only [charListLe, if_neg hyz] at hbc ⊢
            exact hbc
        · by_cases hyz : y = z
          · subst hyz
            simp only [charListLe, if_neg hxy] at hab ⊢
            exact hab
          · simp only [charListLe, if_neg hxy] at hab
            simp only [charListLe, if_neg hyz] at hbc
            have hxz : x < z := lt_trans (of_decide_eq_true hab) (of_decide_eq_true hbc)
            have hne : x ≠ z := ne_of_lt hxz
            simp [charListLe, if_neg hne, hxz]

theorem strLeB_refl (a : String) : strLeB a a = true := charListLe_refl _

theorem strLeB_total (a b : String) : strLeB a b = true ∨ strLeB b a = true :=
  charListLe_total _ _

theorem strLeB_trans (a b c : String) :
    strLeB a b = true → strLeB b c = true → strLeB a c = true :=
  charListLe_trans _ _ _

/-! ## Series.idxmax over a keyed series -/

/-- Scan of `Series.idxmax`: `best` is the current argmax, a later key
replaces it only when its value is strictly greater, so ties keep the
earliest index — exactly pandas `idxmax` (first occurrence of the maximum). -/
def idxmaxFrom (f : String → Int) (best : String) : List String → String
  | [] => best
  | k :: t => if f best < f k then idxmaxFrom f k t else idxmaxFrom f best t

/-- `Series.idxmax` on the series with index list `ks` and values `f`:
`none` models the `ValueError` pandas raises on an empty series. -/
def idxmaxKeys (f : String → Int) : List String → Option String
  | [] => none
  | k :: t => some (idxmaxFrom f k t)

theorem idxmaxFrom_mem (f : String → Int) :
    ∀ (t : List String) (b : String), idxmaxFrom f b t = b ∨ idxmaxFrom f b t ∈ t := by
  intro t
  induction t with
  | nil => intro b; exact Or.inl rfl
  | cons k0 t0 ih =>
    intro b
    by_cases h : f b < f k0
    · simp only [idxmaxFrom, if_pos h]
      rcases ih k0 with h1 | h1
      · exact Or.inr (by rw [h1]; exact List.mem_cons_self k0 t0)
      · exact Or.inr (List.mem_cons_of_mem k0 h1)
    · simp only [idxmaxFrom, if_neg h]
      rcases ih b with h1 | h1
      · exact Or.inl h1
      · exact Or.inr (List.mem_cons_of_mem k0 h1)

theorem idxmaxFrom_ge_base (f : String → Int) :
    ∀ (t : List String) (b : String), f b ≤ f (idxmaxFrom f b t) := by
  intro t
  induction t with
  | nil => intro b; exact le_refl _
  | cons k0 t0 ih =>
    intro b
    by_cases h : f b < f k0
    · simp only [idxmaxFrom, if_pos h]
      exact le_of_lt (lt_of_lt_of_le h (ih k0))
    · simp only [idxmaxFrom, if_neg h]
      exact ih b

theorem idxmaxFrom_max (f : String → Int) :
    ∀ (t : List String) (b : String), ∀ x ∈ t, f x ≤ f (idxmaxFrom f b t) := by
  intro t
  induction t with
  | nil => intro b x hx; cases hx
  | cons k0 t0 ih =>
    intro b x hx
    by_cases h : f b < f k0
    · simp only [idxmaxFrom, if_pos h]
      rcases List.mem_cons.mp hx with rfl | hx0
      · exact idxmaxFrom_ge_base f t0 x
      · exact ih k0 x hx0
    · simp only [idxmaxFrom, if_neg h]
      rcases List.mem_cons.mp hx with rfl | hx0
      · exact le_trans (le_of_not_lt h) (idxmaxFrom_ge_base f t0 b)
      · exact ih b x hx0

theorem idxmaxFrom_eq_base (f : String → Int) :
    ∀ (t : List String) (b : String),
      f (idxmaxFrom f b t) ≤ f b → idxmaxFrom f b t = b := by
  intro t
  induction t with
  | nil => intro b _; rfl
  | cons k0 t0 ih =>
    intro b hle
    by_cases h : f b < f k0
    · exfalso
      simp only [idxmaxFrom, if_pos h] at hle
      have h1 : f k0 ≤ f (idxmaxFrom f k0 t0) := idxmaxFrom_ge_base f t0 k0
      exact absurd (lt_of_lt_of_le h (le_trans h1 hle)) (lt_irrefl _)
    · simp only [idxmaxFrom, if_neg h] at hle ⊢
      exact ih b hle

/-- On a series whose index is ascending (as `groupby(sort=True)` makes it),
`idxmax` returns the least index among those attaining the maximum. -/
theorem idxmaxFrom_least (f : String → Int) :
    ∀ (t : List String) (b : String),
      List.Pairwise (fun a c => strLeB a c = true) (b :: t) →
      ∀ x, (x = b ∨ x ∈ t) → f (idxmaxFrom f b t) ≤ f x →
        strLeB (idxmaxFrom f b t) x = true := by
  intro t
  induction t with
  | nil =>
    intro b _ x hx _
    rcases hx with rfl | hx
    · exact strLeB_refl _
    · cases hx
  | cons k0 t0 ih =>
    intro b hp x hx hle
    rcases List.pairwise_cons.mp hp with ⟨hb, hp0⟩
    by_cases h : f b < f k0
    · simp only [idxmaxFrom, if_pos h] at hle ⊢
      rcases hx with rfl | hx0
      · exfalso
        have h1 : f k0 ≤ f (idxmaxFrom f k0 t0) := idxmaxFrom_ge_base f t0 k0
        exact absurd (lt_of_lt_of_le h (le_trans h1 hle)) (lt_irrefl _)
      · exact ih k0 hp0 x (List.mem_cons.mp hx0) hle
    · simp only [idxmaxFrom, if_neg h] at hle ⊢
      have hp' : List.Pairwise (fun a c => strLeB a c = true) (b :: t0) := by
        refine List.pairwise_cons.mpr ⟨?_, (List.pairwise_cons.mp hp0).2⟩
        intro c hc
        exact hb c (List.mem_cons_of_mem k0 hc)
      rcases hx with rfl | hx0
      · exact ih x hp' x (Or.inl rfl) hle
      · rcases List.mem_cons.mp hx0 with rfl | hx1
        · have hbase : idxmaxFrom f b t0 = b := by
            refine idxmaxFrom_eq_base f t0 b ?_
            exact le_trans hle (le_of_not_lt h)
          rw [hbase]
          exact hb x (List.mem_cons_self x t0)
        · exact ih b hp' x (Or.inr hx1) hle

/-! ## The dashboard's data model, typed level

One structure per row; each field is one column the dashboard code reads
(columns never read by the modelled code are omitted), `Option` marking a
nullable (`NaN`-able) cell. -/

/-- A row of the prepared fedscope table (`prepare_fedscope_data` output):
columns WORKFORCE, AGENCY, TOTAL_EMP. -/
structure FedRow where
  workforce : String
  agency : String
  total_emp : Int
deriving DecidableEq

/-- A row of the raw `fedscope_enriched_summary.csv` table, the columns
`prepare_fedscope_data` touches: WORKFORCE, AGENCY and the four
TOTAL_EMP_PERM_FT / TOTAL_EMP_PERM_PT / TOTAL_EMP_TEMP_FT /
TOTAL_EMP_TEMP_PT counts. -/
structure RawFedRow where
  workforce : Option String
  agency : Option String
  perm_ft : Option Int
  perm_pt : Option Int
  temp_ft : Option Int
  temp_pt : Option Int
deriving DecidableEq

/-- Lexicographic comparator on two-column group keys, the ascending order of
a pandas two-level `groupby(sort=True)` index. -/
def pairLeB (a b : String × String) : Bool :=
  if a.1 = b.1 then strLeB a.2 b.2 else strLeB a.1 b.1

/-- Line 51: `df.dropna(subset=['WORKFORCE', 'AGENCY'])`. -/
def droppedFed (rows : List RawFedRow) : List RawFedRow :=
  rows.filter (fun r => r.workforce.isSome && r.agency.isSome)

/-- Line 60: the dropped rows with `TOTAL_EMP` assigned as the row-wise sum
of the four employment counts (`sum(axis=1)` skips NaN, hence
`Option.getD 0`). -/
def taggedFed (rows : List RawFedRow) : List FedRow :=
  (droppedFed rows).map (fun r =>
    ⟨r.workforce.getD "", r.agency.getD "",
      r.perm_ft.getD 0 + r.perm_pt.getD 0 + r.temp_ft.getD 0 + r.temp_pt.getD 0⟩)

/-- dashboard.py lines 47-65, `prepare_fedscope_data` on a loaded table:
drop rows with missing WORKFORCE or AGENCY, assign TOTAL_EMP, then group by
(WORKFORCE, AGENCY) and sum TOTAL_EMP.  The input-is-None path of the
source returns None before any of this; it is modelled at the frame level
(`prepareFedscopeFrame`). -/
def prepare_fedscope_data (rows : List RawFedRow) : List FedRow :=
  (groupPairs pairLeB (fun r => (r.workforce, r.agency)) (fun r => r.total_emp)
    (taggedFed rows)).map (fun p => ⟨p.1.1, p.1.2, p.2⟩)

/-- A row of the prepared layoff table (`prepare_layoff_data` output):
columns city, Skill Category, Number of Employees Impacted. -/
structure LayoffRow where
  city : String
  skill : String
  impacted : Int
deriving DecidableEq

/-- A row of `federal_layoff_news_with_categories.csv` as seen by
`prepare_layoff_data`: only the merge key column Skill Category matters to
the merged sums (the news columns carried along are dropped by the final
`groupby`). -/
structure NewsRowM where
  skill : Option String
deriving DecidableEq

/-- A row of `city_skill_decision_table.csv`, the columns the dashboard
reads: city, Skill Category, Number of Employees Impacted. -/
structure DecRowT where
  city : Option String
  skill : Option String
  impacted : Option Int
deriving DecidableEq

/-- Line 83: `df_decision.dropna(subset=['city', 'Skill Category'])`. -/
def keptDecisions (decs : List DecRowT) : List DecRowT :=
  decs.filter (fun d => d.city.isSome && d.skill.isSome)

/-- Line 88: the inner merge on Skill Category, in left (news) key order. -/
def mergedLayoff (news : List NewsRowM) (decs : List DecRowT) : List LayoffRow :=
  news.flatMap (fun n =>
    ((keptDecisions decs).filter (fun d => decide (n.skill = d.skill))).map
      (fun d => ⟨d.city.getD "", d.skill.getD "", d.impacted.getD 0⟩))

/-- dashboard.py lines 67-93, `prepare_layoff_data` on loaded tables:
drop decision rows with missing city or Skill Category (`keptDecisions`),
keep the three needed columns, inner-merge news and decision on Skill
Category (`mergedLayoff`), then group by (city, Skill Category) and sum
Number of Employees Impacted (NaN summing as 0, hence `Option.getD 0`). -/
def prepare_layoff_data (news : List NewsRowM) (decs : List DecRowT) : List LayoffRow :=
  (groupPairs pairLeB (fun r => (r.city, r.skill)) (fun r => r.impacted)
    (mergedLayoff news decs)).map (fun p => ⟨p.1.1, p.1.2, p.2⟩)

/-- The KPI dictionary of `calculate_kpis`. -/
structure Kpis where
  total_layoffs : Int
  most_impacted_skill : String
  percentage_impacted : ℚ
deriving DecidableEq

/-- `df_fedscope['TOTAL_EMP'].sum()`. -/
def totalEmp (f : List FedRow) : Int := (f.map (·.total_emp)).sum

/-- `df_layoff['Number of Employees Impacted'].sum()`. -/
def sumImpacted (l : List LayoffRow) : Int := (l.map (·.impacted)).sum

/-- One fiber of `df_layoff.groupby('Skill Category')['Number of Employees Impacted'].sum()`. -/
def skillTotal (l : List LayoffRow) (k : String) : Int :=
  fiberSum (fun r : LayoffRow => r.skill) (fun r : LayoffRow => r.impacted) l k

/-- The ascending index of that grouped series (`groupby` sorts its keys). -/
def skillKeys (l : List LayoffRow) : List String :=
  sortBy strLeB (dedupFirst (l.map (·.skill)))

/-- `df_layoff.groupby('Skill Category')['Number of Employees Impacted'].sum().idxmax()`;
`none` is the `ValueError` raised on an empty series. -/
def mostImpacted (l : List LayoffRow) : Option String :=
  idxmaxKeys (skillTotal l) (skillKeys l)

/-- dashboard.py lines 95-122, `calculate_kpis` on prepared (non-None)
tables.  When the fedscope employee total is 0 it returns the fixed
dictionary `{total_layoffs: 0, most_impacted_skill: N/A, percentage: 0}`
without looking at the layoff table; otherwise it sums the layoffs, takes
`idxmax` of the per-skill sums (raising on an empty layoff table), and
computes `(total_layoffs / total_federal_employees) * 100`. -/
def calculate_kpis (f : List FedRow) (l : List LayoffRow) : Except String Kpis :=
  if totalEmp f = 0 then
    Except.ok ⟨0, "N/A", 0⟩
  else
    match mostImpacted l with
    | none => Except.error "ValueError: attempt to get argmax of an empty sequence"
    | some s =>
        Except.ok ⟨sumImpacted l, s, ((sumImpacted l : ℚ) / (totalEmp f : ℚ)) * 100⟩

/-- Number of news rows sharing a decision row's Skill Category — the
multiplicity the inner merge gives that decision row. -/
def matchCount (news : List NewsRowM) (d : DecRowT) : Int :=
  ((news.filter (fun n => decide (n.skill = d.skill))).length : Int)

/-! ## The per-tab filters of `main` -/

/-- dashboard.py lines 253-258 (tab 1): start from a copy of the prepared
fedscope table; a non-All city keeps rows whose WORKFORCE contains the city
case-insensitively (`str.contains(..., case=False, na=False)`); a non-All
agency then keeps rows with that exact AGENCY. -/
def tab1Filter (rows : List FedRow) (selected_city selected_agency : String) : List FedRow :=
  let r1 := if selected_city = "All" then rows
    else rows.filter (fun r => occursCI selected_city r.workforce)
  if selected_agency = "All" then r1
  else r1.filter (fun r => decide (r.agency = selected_agency))

/-- dashboard.py lines 274-276 (tab 2): a non-All city keeps rows with that
exact city. -/
def tab2Filter (rows : List LayoffRow) (selected_city : String) : List LayoffRow :=
  if selected_city = "All" then rows
  else rows.filter (fun r => decide (r.city = selected_city))

/-! ## Tab 3 (news) and the base-table mutation -/

/-- A pandas cell: a str, a Timestamp (kept as its source text — only the
tag matters to the claims below, not date normalization), an integer, or
NaN/NaT. -/
inductive Cell where
  | s (v : String)
  | dt (v : String)
  | n (v : Int)
  | null
deriving DecidableEq

/-- A row of the loaded news table as tab 3 reads it: published_date,
title, link, categories, summary. -/
structure NewsRow3 where
  published_date : Cell
  title : String
  link : String
  categories : String
  summary : Option String
deriving DecidableEq

/-- `pd.to_datetime` on one cell: a string parses to a Timestamp,
an already-converted or null cell passes through. -/
def toDatetimeCell : Cell → Cell
  | Cell.s v => Cell.dt v
  | c => c

/-- dashboard.py line 288:
`df_federal_layoff_news['published_date'] = pd.to_datetime(...)` — written
back onto the BASE news table (the copy is only taken afterwards, line 291),
so this is the value of the base table after the render. -/
def formatPublishedDates (news : List NewsRow3) : List NewsRow3 :=
  news.map (fun r => { r with published_date := toDatetimeCell r.published_date })

/-- dashboard.py line 295: the unique city values of the decision rows whose
city equals the selector — `[selected_city]` when the city occurs, `[]`
when it does not. -/
def affectedCities (decs : List DecRowT) (selected_city : String) : List String :=
  dedupFirst ((decs.filter (fun d => decide (d.city = some selected_city))).filterMap (·.city))

/-- `Series.str.contains('|'.join(pats), case=False, na=False)` for
metacharacter-free literal patterns: a null cell is False (`na=False`); the
empty join (empty pattern list) gives the empty regular expression, which
matches EVERY non-null string; otherwise some alternative must occur. -/
def containsJoined (pats : List String) (s : Option String) : Bool :=
  match s with
  | none => false
  | some t => if pats.isEmpty then true else pats.any (fun p => occursCI p t)

/-- `Series.str.contains(pat, case=False, na=False)` for one literal pattern. -/
def optContainsCI (pat : String) : Option String → Bool
  | none => false
  | some t => occursCI pat t

/-- dashboard.py lines 291-299 (tab 3 filter): with a non-All city and a
loaded decision table, filter news by
`summary.str.contains('|'.join(affected_cities), case=False, na=False)`;
without a decision table, by `summary.str.contains(selected_city, ...)`. -/
def tab3Filter (news : List NewsRow3) (decision : Option (List DecRowT))
    (selected_city : String) : List NewsRow3 :=
  if selected_city = "All" then news
  else
    match decision with
    | some decs =>
        news.filter (fun r => containsJoined (affectedCities decs selected_city) r.summary)
    | none => news.filter (fun r => optContainsCI selected_city r.summary)

/-! ## Sidebar selectors (dashboard.py lines 214-232) -/

/-- A row of `city_skill_Available_Talent_projection.csv`; only the city
column is read by the modelled code. -/
structure TalentRowT where
  city : Option String
deriving DecidableEq

/-- A row of `city_skill_demand_alignment_live.csv`; only the city column is
read by the modelled code. -/
structure DemandRowT where
  city : Option String
deriving DecidableEq

/-- dashboard.py lines 215-226: `all_cities` extends the `.unique()` city
values of the talent, demand and decision tables (when loaded), dedups with
`list(set(...))` — whose order Python leaves unspecified, so only membership
of this list is claimed below — and inserts the sentinel at index 0.  Null
cities are NOT removed (`unique()` keeps NaN), hence `Option String`. -/
def cityOptions (talent : Option (List TalentRowT)) (demand : Option (List DemandRowT))
    (decision : Option (List DecRowT)) : List (Option String) :=
  let a := match talent with
    | some t => dedupFirst (t.map (·.city))
    | none => []
  let b := match demand with
    | some t => dedupFirst (t.map (·.city))
    | none => []
  let c := match decision with
    | some t => dedupFirst (t.map (·.city))
    | none => []
  some "All" :: dedupFirst (a ++ b ++ c)

/-- dashboard.py lines 229-232: `['All']` extended with the `.unique()`
AGENCY values of the PREPARED fedscope table (first-occurrence order of the
grouped table). -/
def agencyOptions (fedPrepared : Option (List FedRow)) : List String :=
  "All" :: (match fedPrepared with
    | some rows => dedupFirst (rows.map (·.agency))
    | none => [])

/-! ## Definitions written from the spec's words (for comparison only) -/

/-- Written from the spec sentence for C10: the location selector options as
"the sorted set of unique non-null values from the DecisionTable's location
column". -/
def specLocationOptions (decision : List DecRowT) : List String :=
  sortBy strLeB (dedupFirst (decision.filterMap (·.city)))

/-- Written from the spec sentence for C6: "argmax ..., tie-break: first row
encountered in table order" — the per-skill sums indexed by first-occurrence
order of the skills instead of sorted order. -/
def specTopSkillFirstOrder (l : List LayoffRow) : Option String :=
  idxmaxKeys (skillTotal l) (dedupFirst (l.map (·.skill)))

/-! ## The loader (dashboard.py lines 8-33) -/

/-- A tabular source as `load_data` can encounter it: absent from the
filesystem; an empty file (`pd.read_csv` raises EmptyDataError); unreadable
or undecodable (any other exception); or a well-formed CSV with a header
row and zero or more data rows. -/
inductive Source where
  | missing
  | emptyFile
  | malformed (msg : String)
  | wellFormed (header : List String) (rows : List (List String))
deriving DecidableEq

/-- `pd.read_csv` on a source: a well-formed CSV parses to its header and
data rows — an empty data-row list parses fine, to an empty table. -/
def read_csv : Source → Except String (List String × List (List String))
  | Source.missing => Except.error "FileNotFoundError"
  | Source.emptyFile => Except.error "EmptyDataError: No columns to parse from file"
  | Source.malformed m => Except.error m
  | Source.wellFormed h r => Except.ok (h, r)

/-- dashboard.py lines 8-33, `load_data`: a missing path returns None after
`st.error` (the existence check precedes the read); any exception from the
read is caught and returns None after `st.error`; a parsed table is returned
as-is.  The try/except around the whole body is what makes this function
total. -/
def load_data (src : Source) : Option (List String × List (List String)) :=
  match src with
  | Source.missing => none
  | s =>
      match read_csv s with
      | Except.ok t => some t
      | Except.error _ => none

/-! ## Frame level: untyped tables with a declared column list

Used for the schema claims: accessing a column that is not in `cols`
reproduces the pandas `KeyError`.  Value-level KPI results are the typed
`calculate_kpis` above; the frame level records column accesses, the raise
conditions, and which sections of the view complete. -/

/-- An untyped row: column name to cell, in column order. -/
abbrev RowA := List (String × Cell)

structure Frame where
  cols : List String
  rows : List RowA
deriving DecidableEq

def Frame.hasCol (f : Frame) (c : String) : Bool := decide (c ∈ f.cols)

/-- Cell of row `r` in column `c` (`Cell.null` when the row carries no such
entry — an absent entry of a declared column is a NaN cell). -/
def getCell (r : RowA) (c : String) : Cell :=
  match r.find? (fun p => decide (p.1 = c)) with
  | some p => p.2
  | none => Cell.null

/-- First requested column absent from the frame, if any. -/
def missingCol (f : Frame) (cs : List String) : Option String :=
  cs.find? (fun c => !(f.hasCol c))

/-- `df.dropna(subset=cs)`: KeyError when a subset column is absent,
otherwise the rows whose `cs` cells are all non-null. -/
def dropnaSubset (f : Frame) (cs : List String) : Except String Frame :=
  match missingCol f cs with
  | some c => Except.error ("KeyError: " ++ c)
  | none => Except.ok ⟨f.cols,
      f.rows.filter (fun r => cs.all (fun c => !(decide (getCell r c = Cell.null))))⟩

/-- `df[cs]` column projection: KeyError when a column is absent. -/
def selectCols (f : Frame) (cs : List String) : Except String Frame :=
  match missingCol f cs with
  | some c => Except.error ("KeyError: " ++ c)
  | none => Except.ok ⟨cs, f.rows.map (fun r => cs.map (fun c => (c, getCell r c)))⟩

/-- `df[c]` as a cell list: KeyError when the column is absent. -/
def colCells (f : Frame) (c : String) : Except String (List Cell) :=
  if f.hasCol c then Except.ok (f.rows.map (fun r => getCell r c))
  else Except.error ("KeyError: " ++ c)

/-- KeyError check without reading the values. -/
def requireCols (f : Frame) (cs : List String) : Except String Unit :=
  match missingCol f cs with
  | some c => Except.error ("KeyError: " ++ c)
  | none => Except.ok ()

/-- Numeric value of a cell inside a sum: pandas `sum` skips NaN; the
claims only exercise numeric columns, so non-numeric cells are outside the
modelled input range. -/
def cellInt : Cell → Int
  | Cell.n v => v
  | _ => 0

/-- `df[c].sum()`. -/
def colSumInt (f : Frame) (c : String) : Except String Int :=
  (colCells f c).map (fun cs => (cs.map cellInt).sum)

/-- A total comparator on cells, agreeing with the Python orders on the
homogeneous columns the dashboard actually groups by (strings); the
cross-type cases never arise on modelled inputs and only make the
comparator total. -/
def cellRank : Cell → Nat
  | Cell.null => 0
  | Cell.n _ => 1
  | Cell.s _ => 2
  | Cell.dt _ => 3

def cellLeB (a b : Cell) : Bool :=
  if cellRank a = cellRank b then
    match a, b with
    | Cell.n x, Cell.n y => decide (x ≤ y)
    | Cell.s x, Cell.s y => strLeB x y
    | Cell.dt x, Cell.dt y => strLeB x y
    | _, _ => true
  else decide (cellRank a ≤ cellRank b)

def cellPairLeB (a b : Cell × Cell) : Bool :=
  if a.1 = b.1 then cellLeB a.2 b.2 else cellLeB a.1 b.1

/-- The four employment-count columns `prepare_fedscope_data` checks. -/
def fedSumCols : List String :=
  ["TOTAL_EMP_PERM_FT", "TOTAL_EMP_PERM_PT", "TOTAL_EMP_TEMP_FT", "TOTAL_EMP_TEMP_PT"]

/-- dashboard.py lines 60-63 at frame level: assign TOTAL_EMP as the row-wise
sum of the four counts, then group by (WORKFORCE, AGENCY) summing TOTAL_EMP. -/
def groupFedFrame (f : Frame) : Frame :=
  let tagged := f.rows.map (fun r =>
    r ++ [("TOTAL_EMP", Cell.n (cellInt (getCell r "TOTAL_EMP_PERM_FT")
      + cellInt (getCell r "TOTAL_EMP_PERM_PT")
      + cellInt (getCell r "TOTAL_EMP_TEMP_FT")
      + cellInt (getCell r "TOTAL_EMP_TEMP_PT")))])
  let keyOf := fun r : RowA => (getCell r "WORKFORCE", getCell r "AGENCY")
  let keys := sortBy cellPairLeB (dedupFirst (tagged.map keyOf))
  ⟨["WORKFORCE", "AGENCY", "TOTAL_EMP"],
    keys.map (fun k =>
      [("WORKFORCE", k.1), ("AGENCY", k.2),
       ("TOTAL_EMP", Cell.n (((tagged.filter (fun r => decide (keyOf r = k))).map
         (fun r => cellInt (getCell r "TOTAL_EMP"))).sum))])⟩

/-- dashboard.py lines 36-65, `prepare_fedscope_data`, frame level: a None
input passes through; `dropna(subset=['WORKFORCE','AGENCY'])` raises
KeyError if those columns are absent; then each of the four count columns is
checked in order and the first missing one produces the `st.error` message
naming it (text abbreviated without quotes) and a None result; otherwise the
grouped frame.  Returns (prepared table or None, messages shown). -/
def prepareFedscopeFrame : Option Frame → Except String (Option Frame × List String)
  | none => Except.ok (none, [])
  | some df => do
      let filtered ← dropnaSubset df ["WORKFORCE", "AGENCY"]
      match missingCol filtered fedSumCols with
      | some c => Except.ok (none, ["Column " ++ c ++ " not found in fedscope data."])
      | none => Except.ok (some (groupFedFrame filtered), [])

/-- dashboard.py lines 67-93, `prepare_layoff_data`, frame level: None
inputs pass through; dropna and the three-column projection raise KeyError
on a missing decision column; `pd.merge(..., on='Skill Category')` raises
KeyError when the news table lacks the key column; then group by
(city, Skill Category) summing Number of Employees Impacted. -/
def prepareLayoffFrame : Option Frame → Option Frame → Except String (Option Frame × List String)
  | none, _ => Except.ok (none, [])
  | some _, none => Except.ok (none, [])
  | some news, some dec => do
      let decF ← dropnaSubset dec ["city", "Skill Category"]
      let decSel ← selectCols decF ["city", "Skill Category", "Number of Employees Impacted"]
      if news.hasCol "Skill Category" then
        let merged := news.rows.flatMap (fun n =>
          (decSel.rows.filter (fun d =>
            decide (getCell d "Skill Category" = getCell n "Skill Category"))).map
            (fun d => [("city", getCell d "city"),
              ("Skill Category", getCell d "Skill Category"),
              ("Number of Employees Impacted", getCell d "Number of Employees Impacted")]))
        let keyOf := fun r : RowA => (getCell r "city", getCell r "Skill Category")
        let keys := sortBy cellPairLeB (dedupFirst (merged.map keyOf))
        Except.ok (some ⟨["city", "Skill Category", "Number of Employees Impacted"],
          keys.map (fun k =>
            [("city", k.1), ("Skill Category", k.2),
             ("Number of Employees Impacted", Cell.n (((merged.filter
               (fun r => decide (keyOf r = k))).map
               (fun r => cellInt (getCell r "Number of Employees Impacted"))).sum))])⟩, [])
      else Except.error "KeyError: Skill Category"

/-- dashboard.py lines 95-122 at frame level: the column accesses and the
raise condition of `calculate_kpis` (the values are the typed
`calculate_kpis` above).  With a zero employee total the function returns
early; otherwise `idxmax` on the per-skill sums raises on an empty series
(grouping drops NaN keys, so the series is empty iff no non-null skill
exists). -/
def calculateKpisFrame (fed layoff : Frame) : Except String Unit := do
  let total ← colSumInt fed "TOTAL_EMP"
  if total = 0 then Except.ok ()
  else do
    let _ ← colSumInt layoff "Number of Employees Impacted"
    let skills ← colCells layoff "Skill Category"
    let keys := (dedupFirst skills).filter (fun c => !(decide (c = Cell.null)))
    match keys with
    | [] => Except.error "ValueError: attempt to get argmax of an empty sequence"
    | _ :: _ => Except.ok ()

/-- dashboard.py line 288 at frame level: replace the published_date column
with its `pd.to_datetime` conversion, in place; KeyError when absent. -/
def toDatetimeFrame (f : Frame) : Except String Frame := do
  let _ ← requireCols f ["published_date"]
  Except.ok ⟨f.cols, f.rows.map (fun r =>
    r.map (fun p => if p.1 = "published_date" then (p.1, toDatetimeCell p.2) else p))⟩

/-- Outcome of one render: the `st.error`/`st.warning` messages shown, and
whether the KPI row and each tab's main content rendered. -/
structure Sections where
  messages : List String
  kpisShown : Bool
  tab1Chart : Bool
  tab2Chart : Bool
  tab3Table : Bool
deriving DecidableEq

/-- dashboard.py `main` (lines 188-319) at frame level, in source order:
prepare fedscope (205), prepare layoffs (206), KPIs (209), the sidebar
selector column reads (215-232), the KPI row or its warning (239-245), then
the three tabs.  An uncaught exception anywhere aborts the whole render
(`Except.error`): Streamlit shows a traceback instead of the page.  The
selected city/agency values do not appear: the tab filters only take row
subsets of frames whose columns are present by construction, so they cannot
change which sections render or raise. -/
def renderSections (talent demand decision news fedscope : Option Frame) :
    Except String Sections := do
  let fp ← prepareFedscopeFrame fedscope
  let lp ← prepareLayoffFrame news decision
  let kpisOk ← match fp.1, lp.1 with
    | some ff, some lf => do
        let _ ← calculateKpisFrame ff lf
        pure true
    | _, _ => pure false
  let _ ← match talent with
    | some f => do let _ ← colCells f "city"; pure ()
    | none => pure ()
  let _ ← match demand with
    | some f => do let _ ← colCells f "city"; pure ()
    | none => pure ()
  let _ ← match decision with
    | some f => do let _ ← colCells f "city"; pure ()
    | none => pure ()
  let _ ← match fp.1 with
    | some f => do let _ ← colCells f "AGENCY"; pure ()
    | none => pure ()
  let msgs1 := fp.2 ++ lp.2 ++ (if kpisOk then []
    else ["Warning: Unable to calculate KPIs. Please ensure data files are available and correctly formatted."])
  let tab1 ← match fp.1 with
    | some f => do
        let _ ← colCells f "WORKFORCE"
        let _ ← colCells f "AGENCY"
        pure true
    | none => pure false
  let msgs2 := if tab1 then ([] : List String)
    else ["Warning: Federal workforce data is not available."]
  let tab2 := lp.1.isSome
  let msgs3 := if tab2 then ([] : List String)
    else ["Warning: Layoff impact data is not available."]
  let tab3 ← match news with
    | some nf => do
        let nf2 ← toDatetimeFrame nf
        let _ ← requireCols nf2 ["link", "title"]
        let _ ← requireCols nf2 ["published_date", "title", "categories", "summary"]
        pure true
    | none => pure false
  let msgs4 := if tab3 then ([] : List String)
    else ["Warning: Layoff news data is not available."]
  Except.ok ⟨msgs1 ++ msgs2 ++ msgs3 ++ msgs4, kpisOk, tab1, tab2, tab3⟩

/-! ## Concrete schemas of the five sources (for the schema claims) -/

def talColsM : List String := ["city", "Skill Category", "Available Talent"]

def demColsM : List String := ["city", "Skill Category", "Demand-to-Supply Ratio"]

def decColsM : List String := ["city", "Skill Category", "Number of Employees Impacted"]

def newsColsM : List String :=
  ["published_date", "title", "link", "categories", "summary", "Skill Category"]

def fedColsM : List String := ["WORKFORCE", "AGENCY"] ++ fedSumCols

/-- The fedscope schema with TOTAL_EMP_PERM_FT absent (schema drift). -/
def fedColsNoPermFT : List String :=
  ["WORKFORCE", "AGENCY", "TOTAL_EMP_PERM_PT", "TOTAL_EMP_TEMP_FT", "TOTAL_EMP_TEMP_PT"]

/-- A decision table that lost its Skill Category column (schema drift) but
is otherwise valid. -/
def decFrameNoSkill : Frame :=
  ⟨["city", "Number of Employees Impacted"],
   [[("city", Cell.s "Austin"), ("Number of Employees Impacted", Cell.n 500)]]⟩

def talFrameOk : Frame :=
  ⟨talColsM, [[("city", Cell.s "Austin"), ("Skill Category", Cell.s "IT"),
    ("Available Talent", Cell.n 5)]]⟩

def demFrameOk : Frame :=
  ⟨demColsM, [[("city", Cell.s "Austin"), ("Skill Category", Cell.s "IT"),
    ("Demand-to-Supply Ratio", Cell.n 1)]]⟩

def newsFrameOk : Frame :=
  ⟨newsColsM, [[("published_date", Cell.s "2025-01-01"), ("title", Cell.s "t"),
    ("link", Cell.s "l"), ("categories", Cell.s "c"), ("summary", Cell.s "s"),
    ("Skill Category", Cell.s "IT")]]⟩

def fedFrameOk : Frame :=
  ⟨fedColsM, [[("WORKFORCE", Cell.s "W"), ("AGENCY", Cell.s "A"),
    ("TOTAL_EMP_PERM_FT", Cell.n 1), ("TOTAL_EMP_PERM_PT", Cell.n 2),
    ("TOTAL_EMP_TEMP_FT", Cell.n 3), ("TOTAL_EMP_TEMP_PT", Cell.n 4)]]⟩

/-! ## Claim theorems -/

/-- C7: for every prepared table, filtering with the All city selector and
the All agency selector returns the table unchanged (tab 1 and tab 2), and
for every selector choice the filtered view is a sublist of its input — the
kept rows appear in their original relative order. -/
theorem c7_identity_and_order (rows : List FedRow) (lrows : List LayoffRow)
    (selected_city selected_agency : String) :
    tab1Filter rows "All" "All" = rows
    ∧ tab2Filter lrows "All" = lrows
    ∧ (tab1Filter rows selected_city selected_agency).Sublist rows
    ∧ (tab2Filter lrows selected_city).Sublist lrows := by
  refine ⟨rfl, rfl, ?_, ?_⟩
  · simp only [tab1Filter]
    by_cases hc : selected_city = "All"
    · rw [if_pos hc]
      by_cases ha : selected_agency = "All"
      · rw [if_pos ha]
      · rw [if_neg ha]
        exact List.filter_sublist rows
    · rw [if_neg hc]
      by_cases ha : selected_agency = "All"
      · rw [if_pos ha]
        exact List.filter_sublist rows
      · rw [if_neg ha]
        exact (List.filter_sublist _).trans (List.filter_sublist rows)
  · simp only [tab2Filter]
    by_cases hc : selected_city = "All"
    · rw [if_pos hc]
    · rw [if_neg hc]
      exact List.filter_sublist lrows

/-- C9 counterexample: a well-formed source with a header row and ZERO data
rows loads as the parsed (empty) table, not as the Absent/None marker the
claim requires for the zero-data-rows case. -/
theorem c9_counterexample :
    load_data (Source.wellFormed ["a", "b"] []) = some (["a", "b"], [])
    ∧ load_data (Source.wellFormed ["a", "b"] []) ≠ none := by
  refine ⟨rfl, ?_⟩
  intro h
  cases h

/-- C9 amended: `load_data` returns None (after a user-visible `st.error`
message) on a missing file, an empty file (EmptyDataError) or any other
parse failure, and returns the parsed table on a well-formed source even
when it has zero data rows; being a total function of the source, it never
propagates an exception. -/
theorem c9_amended (src : Source) :
    (src = Source.missing → load_data src = none)
    ∧ (src = Source.emptyFile → load_data src = none)
    ∧ (∀ m, src = Source.malformed m → load_data src = none)
    ∧ (∀ h r, src = Source.wellFormed h r → load_data src = some (h, r)) := by
  refine ⟨?_, ?_, ?_, ?_⟩
  · intro h; subst h; rfl
  · intro h; subst h; rfl
  · intro m h; subst h; rfl
  · intro h r hw; subst hw; rfl

/-- C9 witness: the amended characterization applied at the missing source. -/
theorem c9_witness : load_data Source.missing = none :=
  (c9_amended Source.missing).1 rfl

/-- C4, the code bug evaluated: the selector Austin is absent from the
decision table (which holds only Dallas), so `affected_cities` is empty,
`'|'.join` of it is the empty pattern, and `str.contains` with an empty
regular expression keeps EVERY non-null summary — here a news row whose
summary does not contain Austin at all survives the filter. -/
theorem c4_bug_eval :
    tab3Filter [⟨Cell.s "2025-01-01", "t", "l", "c", some "budget cuts pending"⟩]
      (some [⟨some "Dallas", some "IT", some 3⟩]) "Austin"
      = [⟨Cell.s "2025-01-01", "t", "l", "c", some "budget cuts pending"⟩]
    ∧ occursCI "Austin" "budget cuts pending" = false :=
  ⟨rfl, rfl⟩

/-- C5, the code bug evaluated: line 288 converts the published_date column
of the BASE news table in place (the protective copy is only taken on line
291), so after the render the base table differs from the loaded one. -/
theorem c5_bug_eval :
    formatPublishedDates [⟨Cell.s "2024-01-02", "t", "l", "c", some "s"⟩]
      = [⟨Cell.dt "2024-01-02", "t", "l", "c", some "s"⟩]
    ∧ formatPublishedDates [⟨Cell.s "2024-01-02", "t", "l", "c", some "s"⟩]
      ≠ [⟨Cell.s "2024-01-02", "t", "l", "c", some "s"⟩] := by
  refine ⟨rfl, ?_⟩
  intro h
  cases h

/-- The zero-employee early return of `calculate_kpis` (lines 111-112). -/
theorem calculate_kpis_zero (f : List FedRow) (l : List LayoffRow) (h : totalEmp f = 0) :
    calculate_kpis f l = Except.ok ⟨0, "N/A", 0⟩ := by
  unfold calculate_kpis
  rw [if_pos h]

/-- Inversion of a successful `calculate_kpis` on a nonzero employee total. -/
theorem calculate_kpis_ok_inv (f : List FedRow) (l : List LayoffRow) (k : Kpis)
    (hne : totalEmp f ≠ 0) (h : calculate_kpis f l = Except.ok k) :
    mostImpacted l = some k.most_impacted_skill
    ∧ k.total_layoffs = sumImpacted l
    ∧ k.percentage_impacted = ((sumImpacted l : ℚ) / (totalEmp f : ℚ)) * 100 := by
  unfold calculate_kpis at h
  rw [if_neg hne] at h
  cases hmi : mostImpacted l with
  | none => rw [hmi] at h; cases h
  | some s =>
    rw [hmi] at h
    injection h with h
    subst h
    exact ⟨rfl, rfl, rfl⟩

/-- `idxmax` of the sorted per-skill sums: the result is a skill of the
table, its summed impact is maximal, and among the maximizers it is the
lexicographically least skill. -/
theorem mostImpacted_spec (l : List LayoffRow) (s : String)
    (h : mostImpacted l = some s) :
    s ∈ l.map (fun r => r.skill)
    ∧ (∀ x ∈ l.map (fun r => r.skill), skillTotal l x ≤ skillTotal l s)
    ∧ (∀ x ∈ l.map (fun r => r.skill),
        skillTotal l s ≤ skillTotal l x → strLeB s x = true) := by
  have hmemkeys : ∀ x : String, x ∈ skillKeys l ↔ x ∈ l.map (fun r => r.skill) := by
    intro x
    rw [skillKeys, mem_sortBy, mem_dedupFirst]
  unfold mostImpacted at h
  cases hk : skillKeys l with
  | nil => rw [hk] at h; cases h
  | cons k0 t =>
    rw [hk] at h
    simp only [idxmaxKeys] at h
    injection h with h
    subst h
    have hpw : List.Pairwise (fun a c => strLeB a c = true) (k0 :: t) := by
      rw [← hk]
      exact pairwise_sortBy strLeB strLeB_total strLeB_trans _
    refine ⟨?_, ?_, ?_⟩
    · refine (hmemkeys _).mp ?_
      rw [hk]
      rcases idxmaxFrom_mem (skillTotal l) t k0 with hm | hm
      · rw [hm]
        exact List.mem_cons_self k0 t
      · exact List.mem_cons_of_mem k0 hm
    · intro x hx
      have hxk : x ∈ skillKeys l := (hmemkeys x).mpr hx
      rw [hk] at hxk
      rcases List.mem_cons.mp hxk with rfl | hxt
      · exact idxmaxFrom_ge_base (skillTotal l) t x
      · exact idxmaxFrom_max (skillTotal l) t k0 x hxt
    · intro x hx hle
      have hxk : x ∈ skillKeys l := (hmemkeys x).mpr hx
      rw [hk] at hxk
      exact idxmaxFrom_least (skillTotal l) t k0 hpw x (List.mem_cons.mp hxk) hle

/-- C6 counterexample: on the view with rows (Zeta, 5) then (Alpha, 5) —
a tie — the code reports Alpha (the alphabetically least key of the sorted
groupby index), while the claim's tie-break by first row encountered in
table order demands Zeta. -/
theorem c6_counterexample :
    (calculate_kpis [⟨"W", "A", 10⟩] [⟨"c", "Zeta", 5⟩, ⟨"c", "Alpha", 5⟩]).toOption.map
        (fun k => k.most_impacted_skill) = some "Alpha"
    ∧ specTopSkillFirstOrder [⟨"c", "Zeta", 5⟩, ⟨"c", "Alpha", 5⟩] = some "Zeta"
    ∧ ("Alpha" : String) ≠ "Zeta" := by
  refine ⟨rfl, rfl, ?_⟩
  decide

/-- C6 amended: the most-impacted-skill KPI is the argmax of the summed
impact with ties broken by the ALPHABETICALLY least skill (the first key of
the sorted groupby index), not by table order; it is N/A exactly when the
employee total is 0 (regardless of the view); and on an EMPTY view with a
nonzero employee total the computation raises a ValueError instead of
producing N/A.  Determinism holds trivially: the function is pure. -/
theorem c6_amended (f : List FedRow) (l : List LayoffRow) :
    (totalEmp f = 0 → calculate_kpis f l = Except.ok ⟨0, "N/A", 0⟩)
    ∧ (totalEmp f ≠ 0 → l = [] →
        calculate_kpis f l
          = Except.error "ValueError: attempt to get argmax of an empty sequence")
    ∧ (∀ k : Kpis, totalEmp f ≠ 0 → calculate_kpis f l = Except.ok k →
        (k.most_impacted_skill ∈ l.map (fun r => r.skill)
         ∧ (∀ x ∈ l.map (fun r => r.skill),
              skillTotal l x ≤ skillTotal l k.most_impacted_skill)
         ∧ (∀ x ∈ l.map (fun r => r.skill),
              skillTotal l x = skillTotal l k.most_impacted_skill →
                strLeB k.most_impacted_skill x = true))) := by
  refine ⟨fun h => calculate_kpis_zero f l h, ?_, ?_⟩
  · intro hne hl
    subst hl
    unfold calculate_kpis
    rw [if_neg hne]
    rfl
  · intro k hne hok
    have hinv := calculate_kpis_ok_inv f l k hne hok
    have hspec := mostImpacted_spec l k.most_impacted_skill hinv.1
    refine ⟨hspec.1, hspec.2.1, ?_⟩
    intro x hx heq
    exact hspec.2.2 x hx (le_of_eq heq.symm)

/-- C6 witness: the amended theorem at the zero-employee input. -/
theorem c6_witness :
    calculate_kpis [] [⟨"c", "Zeta", 5⟩] = Except.ok ⟨0, "N/A", 0⟩ :=
  (c6_amended [] [⟨"c", "Zeta", 5⟩]).1 rfl

/-- C1 counterexample: with a nonzero employee total and an EMPTY prepared
layoff view, `calculate_kpis` raises (the `idxmax` on line 115 runs before
the dictionary is built), so there is no percentage KPI at all — yet the
claimed formula would give the well-defined value 0 at this input. -/
theorem c1_counterexample :
    calculate_kpis [⟨"W", "A", 5⟩] []
      = Except.error "ValueError: attempt to get argmax of an empty sequence"
    ∧ (100 : ℚ) * ((sumImpacted [] : ℚ) / (totalEmp [⟨"W", "A", 5⟩] : ℚ)) = 0 := by
  constructor
  · rfl
  · norm_num [sumImpacted, totalEmp]

/-- C1 amended: whenever `calculate_kpis` returns a KPI dictionary, the
percentage is exactly 0 when the employee total is 0 (not an error, not
NaN, not infinity), equals 100 * total_layoffs / total_employees when the
total is nonzero, and is nonnegative for nonnegative inputs; but when the
layoff view is empty and the employee total nonzero, `calculate_kpis`
raises instead of producing the (well-defined) percentage. -/
theorem c1_amended (f : List FedRow) (l : List LayoffRow) (k : Kpis)
    (hok : calculate_kpis f l = Except.ok k) :
    (totalEmp f = 0 → k.percentage_impacted = 0)
    ∧ (totalEmp f ≠ 0 →
        k.percentage_impacted = 100 * ((sumImpacted l : ℚ) / (totalEmp f : ℚ)))
    ∧ ((∀ r ∈ f, 0 ≤ r.total_emp) → (∀ r ∈ l, 0 ≤ r.impacted) →
        0 ≤ k.percentage_impacted) := by
  refine ⟨?_, ?_, ?_⟩
  · intro hz
    have h0 : (⟨0, "N/A", 0⟩ : Kpis) = k := by
      have h1 := (calculate_kpis_zero f l hz).symm.trans hok
      injection h1
    rw [← h0]
  · intro hne
    have hinv := calculate_kpis_ok_inv f l k hne hok
    rw [hinv.2.2]
    ring
  · intro hf hl
    by_cases hz : totalEmp f = 0
    · have h0 : (⟨0, "N/A", 0⟩ : Kpis) = k := by
        have h1 := (calculate_kpis_zero f l hz).symm.trans hok
        injection h1
      rw [← h0]
    · have hinv := calculate_kpis_ok_inv f l k hz hok
      have hL : (0 : Int) ≤ sumImpacted l := by
        refine List.sum_nonneg ?_
        intro x hx
        rcases List.mem_map.mp hx with ⟨r, hr, rfl⟩
        exact hl r hr
      have hT : (0 : Int) ≤ totalEmp f := by
        refine List.sum_nonneg ?_
        intro x hx
        rcases List.mem_map.mp hx with ⟨r, hr, rfl⟩
        exact hf r hr
      rw [hinv.2.2]
      have hdiv : (0 : ℚ) ≤ (sumImpacted l : ℚ) / (totalEmp f : ℚ) :=
        div_nonneg (by exact_mod_cast hL) (by exact_mod_cast hT)
      exact mul_nonneg hdiv (by norm_num)

/-- C1 witness: the amended theorem at the zero-employee input. -/
theorem c1_witness : (Kpis.mk 0 "N/A" 0).percentage_impacted = 0 :=
  (c1_amended [] [] ⟨0, "N/A", 0⟩ rfl).1 rfl

/-- C2 counterexample: the spec scenario itself — layoffs summing to 500,
employees summing to 0 — makes the code report total_layoffs = 0, not the
layoff sum 500; only the percentage was supposed to be forced to 0. -/
theorem c2_counterexample :
    calculate_kpis [] [⟨"Austin", "Data", 500⟩] = Except.ok ⟨0, "N/A", 0⟩
    ∧ sumImpacted [⟨"Austin", "Data", 500⟩] = 500
    ∧ (0 : Int) ≠ 500 := by
  refine ⟨rfl, rfl, ?_⟩
  decide

/-- C2 amended: the total-layoffs KPI equals the sum of the impacted-
employees column over the prepared layoff view only when the fedscope
employee total is nonzero; when that total is 0 the early return forces
total_layoffs to 0 (and the skill KPI to N/A) regardless of the layoff
view. -/
theorem c2_amended (f : List FedRow) (l : List LayoffRow) (k : Kpis)
    (hok : calculate_kpis f l = Except.ok k) :
    (totalEmp f ≠ 0 → k.total_layoffs = sumImpacted l)
    ∧ (totalEmp f = 0 → k.total_layoffs = 0 ∧ k.most_impacted_skill = "N/A") := by
  constructor
  · intro hne
    exact (calculate_kpis_ok_inv f l k hne hok).2.1
  · intro hz
    have h0 : (⟨0, "N/A", 0⟩ : Kpis) = k := by
      have h1 := (calculate_kpis_zero f l hz).symm.trans hok
      injection h1
    rw [← h0]
    exact ⟨rfl, rfl⟩

/-- C2 witness: the amended theorem at the spec scenario input (layoffs 500,
employees 0). -/
theorem c2_witness :
    (Kpis.mk 0 "N/A" 0).total_layoffs = 0
    ∧ (Kpis.mk 0 "N/A" 0).most_impacted_skill = "N/A" :=
  (c2_amended [] [⟨"Austin", "Data", 500⟩] ⟨0, "N/A", 0⟩ rfl).2 rfl

/-- Summing a mapped value over `flatMap` is the sum of the per-element
inner sums. -/
theorem sum_map_flatMap {α β : Type} (v : β → Int) (g : α → List β) :
    ∀ l : List α,
      (((l.flatMap g).map v).sum = (l.map (fun a => ((g a).map v).sum)).sum) := by
  intro l
  induction l with
  | nil => rfl
  | cons x t ih =>
    rw [List.flatMap_cons, List.map_append, List.sum_append, ih,
      List.map_cons, List.sum_cons]

theorem matchCount_nil (d : DecRowT) : matchCount [] d = 0 := rfl

theorem matchCount_cons (n : NewsRowM) (rest : List NewsRowM) (d : DecRowT) :
    matchCount (n :: rest) d
      = (if n.skill = d.skill then 1 else 0) + matchCount rest d := by
  unfold matchCount
  rw [List.filter_cons]
  by_cases h : n.skill = d.skill
  · rw [if_pos (by simp [h]), if_pos h, List.length_cons]
    push_cast
    ring
  · rw [if_neg (by simp [h]), if_neg h]
    ring

/-- Exchanging the two summations of the inner merge: summing per news row
over matching decision rows equals, per decision row, the news match count
times its impacted value. -/
theorem exchange_sum (decF : List DecRowT) :
    ∀ news : List NewsRowM,
      (news.map (fun n =>
          (decF.map (fun d => if n.skill = d.skill then d.impacted.getD 0 else 0)).sum)).sum
        = (decF.map (fun d : DecRowT => matchCount news d * d.impacted.getD 0)).sum := by
  intro news
  induction news with
  | nil =>
    have h0 : ∀ d ∈ decF,
        matchCount ([] : List NewsRowM) d * d.impacted.getD 0 = (fun _ : DecRowT => (0 : Int)) d := by
      intro d _
      rw [matchCount_nil]
      ring
    rw [List.map_nil, List.sum_nil, List.map_congr_left h0]
    simp
  | cons n0 rest ih =>
    have hcong : ∀ d ∈ decF,
        matchCount (n0 :: rest) d * d.impacted.getD 0
          = (fun d : DecRowT => (if n0.skill = d.skill then d.impacted.getD 0 else 0)
              + matchCount rest d * d.impacted.getD 0) d := by
      intro d _
      rw [matchCount_cons]
      by_cases h : n0.skill = d.skill
      · simp only [if_pos h]
        ring
      · simp only [if_neg h]
        ring
    rw [List.map_cons, List.sum_cons, ih, List.map_congr_left hcong, List.sum_map_add]

/-- C3: the prepared layoff table is the inner join on Skill Category,
grouped and summed — so its total impacted count is, per kept decision row,
the row's impacted value counted once for every news row sharing its skill
category: a decision row matching no news row contributes nothing, one
matching k news rows is counted k times.  Consequently the total-layoffs
KPI equals that same multiplicity-weighted sum whenever it is computed from
the prepared table (nonzero employee total). -/
theorem c3_inner_join_totals (news : List NewsRowM) (decs : List DecRowT) :
    sumImpacted (prepare_layoff_data news decs)
      = ((keptDecisions decs).map (fun d : DecRowT => matchCount news d * d.impacted.getD 0)).sum
    ∧ (∀ (f : List FedRow) (k : Kpis), totalEmp f ≠ 0 →
        calculate_kpis f (prepare_layoff_data news decs) = Except.ok k →
        k.total_layoffs
          = ((keptDecisions decs).map (fun d : DecRowT => matchCount news d * d.impacted.getD 0)).sum) := by
  have h1 : sumImpacted (prepare_layoff_data news decs)
      = ((groupPairs pairLeB (fun r : LayoffRow => (r.city, r.skill))
          (fun r : LayoffRow => r.impacted) (mergedLayoff news decs)).map Prod.snd).sum := by
    unfold sumImpacted prepare_layoff_data
    rw [List.map_map]
    rfl
  have hinner : ∀ n ∈ news,
      ((((keptDecisions decs).filter (fun d => decide (n.skill = d.skill))).map
          (fun d => (⟨d.city.getD "", d.skill.getD "", d.impacted.getD 0⟩ : LayoffRow))).map
        (fun r : LayoffRow => r.impacted)).sum
      = ((keptDecisions decs).map
          (fun d => if n.skill = d.skill then d.impacted.getD 0 else 0)).sum := by
    intro n _
    rw [List.map_map]
    exact sum_filter_eq_sum_ite (fun d : DecRowT => n.skill = d.skill) (fun d : DecRowT => d.impacted.getD 0) _
  have hmap : news.map (fun n =>
        ((((keptDecisions decs).filter (fun d => decide (n.skill = d.skill))).map
            (fun d => (⟨d.city.getD "", d.skill.getD "", d.impacted.getD 0⟩ : LayoffRow))).map
          (fun r : LayoffRow => r.impacted)).sum)
      = news.map (fun n => ((keptDecisions decs).map
          (fun d => if n.skill = d.skill then d.impacted.getD 0 else 0)).sum) :=
    List.map_congr_left hinner
  have h2 : ((mergedLayoff news decs).map (fun r : LayoffRow => r.impacted)).sum
      = ((keptDecisions decs).map (fun d : DecRowT => matchCount news d * d.impacted.getD 0)).sum := by
    unfold mergedLayoff
    rw [sum_map_flatMap, hmap]
    exact exchange_sum (keptDecisions decs) news
  have hmain : sumImpacted (prepare_layoff_data news decs)
      = ((keptDecisions decs).map (fun d : DecRowT => matchCount news d * d.impacted.getD 0)).sum := by
    rw [h1, groupPairs_sum, h2]
  refine ⟨hmain, ?_⟩
  intro f k hne hok
  rw [(calculate_kpis_ok_inv f _ k hne hok).2.1, hmain]

/-- C3 witness: two news rows share the decision row's skill category, so
its 7 impacted employees are counted twice. -/
theorem c3_witness :
    sumImpacted (prepare_layoff_data [⟨some "IT"⟩, ⟨some "IT"⟩]
      [⟨some "Dallas", some "IT", some 7⟩]) = 14 := by
  rw [(c3_inner_join_totals [⟨some "IT"⟩, ⟨some "IT"⟩]
    [⟨some "Dallas", some "IT", some 7⟩]).1]
  decide

/-- Grouping by (WORKFORCE, AGENCY) preserves the set of agency values. -/
theorem agency_of_groupFed (tagged : List FedRow) (a : String) :
    (a ∈ ((groupPairs pairLeB (fun r : FedRow => (r.workforce, r.agency))
        (fun r : FedRow => r.total_emp) tagged).map
        (fun p => (⟨p.1.1, p.1.2, p.2⟩ : FedRow))).map (fun r => r.agency)
      ↔ a ∈ tagged.map (fun r => r.agency)) := by
  rw [List.map_map]
  constructor
  · intro h
    rcases List.mem_map.mp h with ⟨p, hp, rfl⟩
    rcases List.mem_map.mp hp with ⟨k, hk, rfl⟩
    have hk2 : k ∈ tagged.map (fun r : FedRow => (r.workforce, r.agency)) :=
      (mem_dedupFirst _ _).mp ((mem_sortBy _ _ _).mp hk)
    rcases List.mem_map.mp hk2 with ⟨r, hr, hkr⟩
    rw [← hkr]
    have hmem : r.agency ∈ tagged.map (fun r : FedRow => r.agency) :=
      List.mem_map_of_mem _ hr
    exact hmem
  · intro h
    rcases List.mem_map.mp h with ⟨r, hr, rfl⟩
    have hkey : (r.workforce, r.agency)
        ∈ tagged.map (fun r : FedRow => (r.workforce, r.agency)) :=
      List.mem_map_of_mem _ hr
    have hks : (r.workforce, r.agency) ∈ sortBy pairLeB
        (dedupFirst (tagged.map (fun r : FedRow => (r.workforce, r.agency)))) :=
      (mem_sortBy _ _ _).mpr ((mem_dedupFirst _ _).mpr hkey)
    have hpair : ((r.workforce, r.agency),
        fiberSum (fun r : FedRow => (r.workforce, r.agency))
          (fun r : FedRow => r.total_emp) tagged (r.workforce, r.agency))
        ∈ groupPairs pairLeB (fun r : FedRow => (r.workforce, r.agency))
          (fun r : FedRow => r.total_emp) tagged := by
      unfold groupPairs
      exact List.mem_map_of_mem _ hks
    exact List.mem_map_of_mem
      ((fun r : FedRow => r.agency) ∘ fun p => (⟨p.1.1, p.1.2, p.2⟩ : FedRow)) hpair

/-- The agency values of the prepared fedscope table are exactly the non-null
AGENCY values of the raw rows that survive the WORKFORCE/AGENCY dropna. -/
theorem mem_prepared_agency (raw : List RawFedRow) (a : String) :
    (a ∈ (prepare_fedscope_data raw).map (fun r => r.agency)
      ↔ ∃ r ∈ raw, r.workforce.isSome ∧ r.agency = some a) := by
  unfold prepare_fedscope_data
  rw [agency_of_groupFed]
  unfold taggedFed droppedFed
  rw [List.map_map]
  constructor
  · intro h
    rcases List.mem_map.mp h with ⟨r, hr, rfl⟩
    rcases List.mem_filter.mp hr with ⟨hrr, hcond⟩
    rw [Bool.and_eq_true] at hcond
    refine ⟨r, hrr, hcond.1, ?_⟩
    show r.agency = some (r.agency.getD "")
    rcases Option.isSome_iff_exists.mp hcond.2 with ⟨v, hv⟩
    rw [hv]
    rfl
  · rintro ⟨r, hr, hw, ha⟩
    refine List.mem_map.mpr ⟨r, ?_, ?_⟩
    · refine List.mem_filter.mpr ⟨hr, ?_⟩
      rw [Bool.and_eq_true]
      refine ⟨hw, ?_⟩
      rw [ha]
      rfl
    · show r.agency.getD "" = a
      rw [ha]
      rfl

/-- C10 counterexample: a city present only in the talent table (Boston)
appears in the code's location options, while the spec side — "the sorted
set of unique non-null values of the DecisionTable's location column" — does
not contain it; the code options also carry the All sentinel and are not
sorted. -/
theorem c10_counterexample :
    some "Boston" ∈ cityOptions (some [⟨some "Boston"⟩]) none
        (some [⟨some "Austin", some "IT", some 1⟩])
    ∧ "Boston" ∉ specLocationOptions [⟨some "Austin", some "IT", some 1⟩]
    ∧ cityOptions (some [⟨some "Boston"⟩]) none (some [⟨some "Austin", some "IT", some 1⟩])
        = [some "All", some "Boston", some "Austin"] := by
  refine ⟨?_, ?_, rfl⟩ <;> decide

/-- C10 amended: the location option list consists of the All sentinel plus
the union of the city values (nulls included) of the TALENT, DEMAND and
DECISION tables — not of the decision table alone, and in an order the code
does not fix (`list(set(...))`), so membership is what is characterised;
the agency option list is All plus exactly the non-null AGENCY values of the
raw fedscope rows surviving the dropna, in grouped-table first-occurrence
order rather than sorted order. -/
theorem c10_amended (talent : Option (List TalentRowT)) (demand : Option (List DemandRowT))
    (decision : Option (List DecRowT)) (raw : List RawFedRow)
    (x : Option String) (a : String) :
    (x ∈ cityOptions talent demand decision ↔
      (x = some "All"
        ∨ x ∈ (talent.getD []).map (fun r => r.city)
        ∨ x ∈ (demand.getD []).map (fun r => r.city)
        ∨ x ∈ (decision.getD []).map (fun r => r.city)))
    ∧ (a ∈ agencyOptions (some (prepare_fedscope_data raw)) ↔
      (a = "All" ∨ ∃ r ∈ raw, r.workforce.isSome ∧ r.agency = some a)) := by
  constructor
  · unfold cityOptions
    cases talent with
    | none =>
      cases demand with
      | none =>
        cases decision with
        | none => simp [mem_dedupFirst]
        | some c => simp [mem_dedupFirst]
      | some b =>
        cases decision with
        | none => simp [mem_dedupFirst]
        | some c => simp [mem_dedupFirst, or_assoc]
    | some t =>
      cases demand with
      | none =>
        cases decision with
        | none => simp [mem_dedupFirst]
        | some c => simp [mem_dedupFirst, or_assoc]
      | some b =>
        cases decision with
        | none => simp [mem_dedupFirst, or_assoc]
        | some c => simp [mem_dedupFirst, or_assoc]
  · have hshow : agencyOptions (some (prepare_fedscope_data raw))
        = "All" :: dedupFirst ((prepare_fedscope_data raw).map (fun r => r.agency)) := rfl
    rw [hshow, List.mem_cons, mem_dedupFirst, mem_prepared_agency]

/-- C10 witness: the amended membership characterization applied at the
counterexample input, forward direction. -/
theorem c10_witness :
    some "Boston" = some "All"
    ∨ some "Boston" ∈ ((some [(⟨some "Boston"⟩ : TalentRowT)]).getD []).map
        (fun r : TalentRowT => r.city)
    ∨ some "Boston" ∈ ((none : Option (List DemandRowT)).getD []).map
        (fun r : DemandRowT => r.city)
    ∨ some "Boston" ∈ ((some [(⟨some "Austin", some "IT", some 1⟩ : DecRowT)]).getD []).map
        (fun r : DecRowT => r.city) :=
  ((c10_amended (some [⟨some "Boston"⟩]) none (some [⟨some "Austin", some "IT", some 1⟩])
    [] (some "Boston") "All").1).mp (by decide)

/-- C8 counterexample: the decision table missing its Skill Category column
(otherwise valid, all other tables valid) does not degrade only the
layoff-impact section — `dropna(subset=['city','Skill Category'])` on line
83 raises an uncaught KeyError and the WHOLE render aborts: no section
completes and no data-unavailable message is shown. -/
theorem c8_counterexample :
    renderSections (some talFrameOk) (some demFrameOk) (some decFrameNoSkill)
      (some newsFrameOk) (some fedFrameOk) = Except.error "KeyError: Skill Category" := rfl

/-- C8 amended: only the four fedscope employment-count columns are checked.
For ANY row contents, a fedscope table whose schema lacks
TOTAL_EMP_PERM_FT (with the other tables well-formed) renders with an error
message naming the column; the workforce section and the whole KPI row
(including the total-layoffs KPI, which does not need that column) become
unavailable with warnings, while the layoff-impact and news sections still
render.  A required column missing from any other table instead raises an
uncaught KeyError that aborts the entire render (see the counterexample). -/
theorem c8_amended (tr dr cr nr fr : List RowA) :
    renderSections (some ⟨talColsM, tr⟩) (some ⟨demColsM, dr⟩) (some ⟨decColsM, cr⟩)
      (some ⟨newsColsM, nr⟩) (some ⟨fedColsNoPermFT, fr⟩)
    = Except.ok ⟨["Column TOTAL_EMP_PERM_FT not found in fedscope data.",
        "Warning: Unable to calculate KPIs. Please ensure data files are available and correctly formatted.",
        "Warning: Federal workforce data is not available."], false, false, true, true⟩ := rfl

/-- C8 witness: the amended render outcome at one concrete set of rows. -/
theorem c8_witness :
    renderSections (some ⟨talColsM, []⟩) (some ⟨demColsM, []⟩) (some ⟨decColsM, []⟩)
      (some ⟨newsColsM, []⟩) (some ⟨fedColsNoPermFT, []⟩)
    = Except.ok ⟨["Column TOTAL_EMP_PERM_FT not found in fedscope data.",
        "Warning: Unable to calculate KPIs. Please ensure data files are available and correctly formatted.",
        "Warning: Federal workforce data is not available."], false, false, true, true⟩ :=
  c8_amended [] [] [] [] []
